import Mathlib

/-!
Verification of the goshorty short-code registry and click-analytics
engine against its specification.

The transport layer (`RedirectHandler`, `StatHandler`, `relativeTime`,
the route table in `main`) is embedded from `src/app.go`.  The storage
client, code generator, registry and aggregators (`GetUrl`, `NewUrl`,
`Hit`, `Hits`, `Stats`, `Sources`) live in repository files that are
not part of `src/`; those are modelled from the specification, each
marked `Modelled from the spec:` in its doc comment.
-/

namespace Goshorty

/-- A short url record: `{Id, Destination, Created}` (spec §3). -/
structure ShortUrl where
  Id : String
  Destination : String
  Created : Nat
  deriving DecidableEq, Repr

/-- Granularity of a time-bucket counter (spec §3):
`hour, day, week, month, year, all`. -/
inductive Granularity where
  | hour | day | week | month | year | all
  deriving DecidableEq, Repr

/-- Error taxonomy of spec §7. -/
inductive GosError where
  | InvalidURL
  | DomainRestricted
  | CodeGenerationExhausted
  | InvalidGranularity
  | StorageFailure
  deriving DecidableEq, Repr

/-- The classified request consumed from the request-classifier
collaborator (spec §6): `{timestamp, referrerHost, geoCountry}`. -/
structure ClassifiedRequest where
  timestamp : Nat
  referrerHost : String
  geoCountry : String
  deriving DecidableEq, Repr

/- ### Association-list primitives of the key-value store -/

/-- Lookup of the first entry with the given key. -/
def alookup {K V : Type} [DecidableEq K] : List (K × V) → K → Option V
  | [], _ => none
  | (k', v) :: t, k => if k' = k then some v else alookup t k

/-- Numeric read: value of a counter key, `0` when absent. -/
def valList {K : Type} [DecidableEq K] (l : List (K × Nat)) (k : K) : Nat :=
  match alookup l k with
  | some v => v
  | none => 0

/-- Atomic integer increment (spec §4.1 `increment` /
`sortedSetIncrement`): bump the first entry with key `k`, creating it
at the end when absent. -/
def incrList {K : Type} [DecidableEq K] : List (K × Nat) → K → Nat → List (K × Nat)
  | [], k, d => [(k, d)]
  | (k', v) :: t, k, d => if k' = k then (k', v + d) :: t else (k', v) :: incrList t k d

/-- Sum of the values of all entries whose key satisfies `p`. -/
def sumMatching {K : Type} (p : K → Bool) : List (K × Nat) → Nat
  | [] => 0
  | (k, v) :: t => (if p k then v else 0) + sumMatching p t

/-- Modelled from the spec: the backing key-value store (spec §6
"Persisted state layout"): one entry per `ShortUrl` keyed by Id, one
counter per `(Id, granularity, bucket)`, one sorted structure per Id
for sources with members = source keys and scores = counts. -/
structure Store where
  urls : List (String × ShortUrl)
  counters : List ((String × Granularity × String) × Nat)
  sources : List ((String × String) × Nat)
  deriving DecidableEq, Repr

/-- The empty store. -/
def emptyStore : Store := ⟨[], [], []⟩

/-- Modelled from the spec: `setIfAbsent(key, value) -> bool` (spec
§4.1), atomic set-if-absent on the url table: writes only when the key
is absent and reports whether the write occurred. -/
def setIfAbsent (s : Store) (k : String) (v : ShortUrl) : Store × Bool :=
  match alookup s.urls k with
  | some _ => (s, false)
  | none => ({ s with urls := (k, v) :: s.urls }, true)

/-- Modelled from the spec: `Get(id) -> ShortUrl | nil | error` (spec
§4.3, the `GetUrl` called by the handlers in `src/app.go`): `nil` (here
`none`) when no record exists, an error only on storage failure
(`storageOk = false` models an unavailable backing store), never
fabricating a record. -/
def GetUrl (s : Store) (storageOk : Bool) (id : String) :
    Except GosError (Option ShortUrl) :=
  if storageOk then .ok (alookup s.urls id) else .error .StorageFailure

/- ### Code generator (spec §4.2) -/

/-- The 62-symbol alphabet `[A-Za-z0-9]` the code generator draws from. -/
def alphabet : List Char :=
  "ABCDEFGHIJKLMNOPQRSTUVWXYZabcdefghijklmnopqrstuvwxyz0123456789".toList

/-- The default short-code length: `flag.IntVar(&settings.UrlLength,
"length", 5, ...)` in `src/app.go` `main`. -/
def defaultUrlLength : Nat := 5

/-- The maximum number of code-generation attempts (spec §4.2: "bounded
by a maximum attempt count (e.g., 10)"). -/
def maxAttempts : Nat := 10

/-- Modelled from the spec: "draw a uniformly random code of length L
... from `[A-Za-z0-9]`" (spec §4.2).  The source of randomness is the
`seed`; the code is its base-62 expansion, `L` symbols long. -/
def randomCode (L : Nat) (seed : Nat) : String :=
  String.mk ((List.range L).map (fun i => alphabet.getD (seed / 62 ^ i % 62) 'A'))

/-- Modelled from the spec: the collision-retry loop of the code
generator (spec §4.2): insert the drawn code by `setIfAbsent`; on
"already present" redraw with the next seed; exhausting the seeds fails
with `CodeGenerationExhausted`. -/
def createAttempts (s : Store) (dest : String) (now L : Nat) :
    List Nat → Except GosError (ShortUrl × Store)
  | [] => .error .CodeGenerationExhausted
  | seed :: rest =>
    let code := randomCode L seed
    let record := ShortUrl.mk code dest now
    match setIfAbsent s code record with
    | (s', true) => .ok (record, s')
    | (_, false) => createAttempts s dest now L rest

/-- Strip a recognised scheme, returning the remaining characters of an
absolute http(s) URL. -/
def schemeRest (dest : String) : Option (List Char) :=
  if "http://".data.isPrefixOf dest.data then some (dest.data.drop 7)
  else if "https://".data.isPrefixOf dest.data then some (dest.data.drop 8)
  else none

/-- Host component of an absolute URL: the remainder up to the first
slash. -/
def hostOf (dest : String) : Option (List Char) :=
  (schemeRest dest).map (fun r => r.takeWhile (fun c => c ≠ '/'))

/-- A well-formed absolute URL: a recognised scheme and a non-empty
host. -/
def isValidUrl (dest : String) : Bool :=
  match hostOf dest with
  | some h => !h.isEmpty
  | none => false

/-- Modelled from the spec: `Create(destinationUrl, restrictToDomain)
-> ShortUrl | error` (spec §4.3, the `NewUrl` called from
`src/app.go`): validate the destination as an absolute URL
(`InvalidURL`), enforce the optional domain restriction
(`DomainRestricted`), then run the generator's bounded retry loop over
the first `maxAttempts` seeds. -/
def Create (s : Store) (dest restrictDomain : String) (now L : Nat)
    (seeds : List Nat) : Except GosError (ShortUrl × Store) :=
  match hostOf dest with
  | none => .error .InvalidURL
  | some h =>
    if h.isEmpty then .error .InvalidURL
    else if restrictDomain.isEmpty = false ∧ h ≠ restrictDomain.data then
      .error .DomainRestricted
    else createAttempts s dest now L (seeds.take maxAttempts)

/- ### Hit recorder (spec §4.4) -/

/-- Modelled from the spec: the bucket key identifying the time window
of a granularity that contains the timestamp (spec §3 `BucketKey`,
calendar-aligned windows per the recommendation of §9; timestamps are
seconds).  The `all` granularity has a single unbounded window. -/
def bucketKey (g : Granularity) (ts : Nat) : String :=
  match g with
  | .all => "all"
  | .hour => "hour:" ++ toString (ts / 3600)
  | .day => "day:" ++ toString (ts / 86400)
  | .week => "week:" ++ toString (ts / 604800)
  | .month => "month:" ++ toString (ts / 2592000)
  | .year => "year:" ++ toString (ts / 31536000)

/-- Modelled from the spec: the classified source tag of a request
(spec §3 / §4.4): the referrer host, else the geo country, else a
sentinel for direct/unknown. -/
def sourceKeyOf (req : ClassifiedRequest) : String :=
  if req.referrerHost ≠ "" then req.referrerHost
  else if req.geoCountry ≠ "" then req.geoCountry
  else "direct"

/-- Increment one time-bucket counter of `id` by 1. -/
def incrCounter (s : Store) (id : String) (g : Granularity) (ts : Nat) : Store :=
  { s with counters := incrList s.counters (id, g, bucketKey g ts) 1 }

/-- Modelled from the spec: `RecordHit(shortUrl, classifiedRequest)`
(spec §4.4, `gosUrl.Hit` in `src/app.go`): increment the `all` counter,
the counter of every finer granularity bucket containing the timestamp,
and the source sorted structure for the classified source key. -/
def RecordHit (s : Store) (u : ShortUrl) (req : ClassifiedRequest) : Store :=
  let ts := req.timestamp
  let s1 := incrCounter s u.Id .all ts
  let s2 := incrCounter s1 u.Id .hour ts
  let s3 := incrCounter s2 u.Id .day ts
  let s4 := incrCounter s3 u.Id .week ts
  let s5 := incrCounter s4 u.Id .month ts
  let s6 := incrCounter s5 u.Id .year ts
  { s6 with sources := incrList s6.sources (u.Id, sourceKeyOf req) 1 }

/- ### Stats aggregator (spec §4.5) -/

/-- Parse a granularity string; unknown strings have no granularity. -/
def parseGranularity (g : String) : Option Granularity :=
  if g = "hour" then some .hour
  else if g = "day" then some .day
  else if g = "week" then some .week
  else if g = "month" then some .month
  else if g = "year" then some .year
  else if g = "all" then some .all
  else none

/-- Modelled from the spec: `Stats(shortUrl, granularity) -> count |
error` (spec §4.5): reads the single counter for the current window of
the granularity; unknown granularity fails with `InvalidGranularity`;
an unavailable store fails with `StorageFailure`. -/
def Stats (s : Store) (storageOk : Bool) (u : ShortUrl) (g : String)
    (now : Nat) : Except GosError Nat :=
  match parseGranularity g with
  | none => .error .InvalidGranularity
  | some gr =>
    if storageOk then .ok (valList s.counters (u.Id, gr, bucketKey gr now))
    else .error .StorageFailure

/-- Modelled from the spec: `Hits(shortUrl) -> count` (spec §4.5), the
all-time total of the short url. -/
def Hits (s : Store) (storageOk : Bool) (u : ShortUrl) : Except GosError Nat :=
  if storageOk then .ok (valList s.counters (u.Id, .all, "all"))
  else .error .StorageFailure

/- ### Source aggregator (spec §4.6) -/

/-- The configured top-N bound of the source aggregator (spec §4.6,
"N configured, e.g., 10"). -/
def topN : Nat := 10

/-- All `(sourceKey, count)` members of the sorted structure of `id`. -/
def sourceEntries (s : Store) (id : String) : List (String × Nat) :=
  s.sources.filterMap (fun e => if e.1.1 = id then some (e.1.2, e.2) else none)

/-- The display order of source entries: count descending, ties broken
by source key in lexical order (spec §4.6). -/
def sourceLe (a b : String × Nat) : Bool :=
  b.2 < a.2 || (a.2 = b.2 && a.1 ≤ b.1)

/-- Modelled from the spec: `Sources(shortUrl, topNOnly) -> ordered
list of (source, count)` (spec §4.6): the full breakdown sorted
descending by count with lexical tie-break, truncated to the top `topN`
entries when `topNOnly` is true. -/
def Sources (s : Store) (storageOk : Bool) (u : ShortUrl) (topNOnly : Bool) :
    Except GosError (List (String × Nat)) :=
  if storageOk then
    let full := (sourceEntries s u.Id).mergeSort sourceLe
    .ok (if topNOnly then full.take topN else full)
  else .error .StorageFailure

/- ### Transport layer, embedded from `src/app.go` -/

/-- An HTTP response produced by a handler. -/
inductive HttpResponse where
  | errorPage (msg : String) (status : Nat)
  | redirect (location : String) (status : Nat)
  | json (contentType : String) (status : Nat) (body : String)
  deriving DecidableEq, Repr

/-- Human-readable message of an error, as `err.Error()` would render
it. -/
def errMsg : GosError → String
  | .InvalidURL => "invalid URL"
  | .DomainRestricted => "domain restricted"
  | .CodeGenerationExhausted => "code generation exhausted"
  | .InvalidGranularity => "invalid granularity"
  | .StorageFailure => "storage failure"

/-- What `RedirectHandler` produces before any background work runs:
the response it writes and the hit-recording task it spawns with `go`
(the task's future outcome is not consulted). -/
structure RedirectOutcome where
  response : HttpResponse
  task : Option (ShortUrl × ClassifiedRequest)
  deriving DecidableEq, Repr

/-- `RedirectHandler` of `src/app.go` (lines 83-107): resolve the id
via `GetUrl`; storage errors render a 500 page; an absent record
renders the configured 404 redirect or a 404 page; a resolved record
spawns `go gosUrl.Hit(request)` — returned here as the detached
`task`, whose result no part of the handler reads — and immediately
issues the 301 redirect to the destination.  `originalUrl` is the
escaped absolute url of the request that the 404 redirect splices in
for `$gosURL`. -/
def RedirectHandler (s : Store) (storageOk : Bool) (redirect404 : String)
    (originalUrl : String) (id : String) (req : ClassifiedRequest) :
    RedirectOutcome :=
  match GetUrl s storageOk id with
  | .error e => ⟨.errorPage (errMsg e) 500, none⟩
  | .ok none =>
    if redirect404 ≠ "" then
      ⟨.redirect (redirect404.replace "$gosURL" originalUrl) 307, none⟩
    else ⟨.errorPage "No URL was found with that goshorty code" 404, none⟩
  | .ok (some gosUrl) => ⟨.redirect gosUrl.Destination 301, some (gosUrl, req)⟩

/-- The whole redirect request including the later, detached run of the
spawned hit-recording task: the response is fixed by `RedirectHandler`
before the task runs; the task then either records the hit or fails
(`hitOk = false`), a failure being logged and swallowed (spec §4.4). -/
def runRedirect (s : Store) (storageOk hitOk : Bool)
    (redirect404 originalUrl : String) (id : String)
    (req : ClassifiedRequest) : HttpResponse × Store :=
  let out := RedirectHandler s storageOk redirect404 originalUrl id req
  match out.task with
  | none => (out.response, s)
  | some (u, r) => (out.response, if hitOk then RecordHit s u r else s)

/-- The body `{"error":"..."}` that `StatHandler` formats for a failed
stats query. -/
def errorBody (msg : String) : String := "\x7b\"error\":\"" ++ msg ++ "\"\x7d"

/-- The inner `switch` of `StatHandler` (`src/app.go` lines 134-145):
query `Sources(false)` when `what` is `"sources"`, else
`Stats(what)`, and marshal the result to JSON; both the query error
and the marshalling error land in the `err` variable freshly declared
by `:=` inside the case. -/
def statSwitch (s : Store) (storageOk : Bool) (gosUrl : ShortUrl)
    (what : String) (now : Nat)
    (marshalList : List (String × Nat) → Except String String)
    (marshalNat : Nat → Except String String) : Except String String :=
  if what = "sources" then
    match Sources s storageOk gosUrl false with
    | .ok stats => marshalList stats
    | .error e => .error (errMsg e)
  else
    match Stats s storageOk gosUrl what now with
    | .ok stats => marshalNat stats
    | .error e => .error (errMsg e)

/-- `StatHandler` of `src/app.go` (lines 109-153): non-XHR requests are
redirected to the stats page; the id is resolved via `GetUrl` into the
outer `err`; then the `switch` computes `body`, but its errors go to
the shadowing inner `err` declared with `:=` in each case, and a
marshalling failure leaves `body` nil.  The `if err != nil` after the
switch reads the OUTER `err` — necessarily nil past the `GetUrl`
guard — so the `errorBody` branch never fires, and the handler writes
whatever `body` holds (nil, i.e. empty, when the switch failed) with
the default 200 status and the JSON content type.  The lookup and the
stats queries are separate storage calls, so each carries its own
health flag (`okGet`, `okQuery`). -/
def StatHandler (s : Store) (okGet okQuery : Bool) (xhr : Bool)
    (statsPath : String) (id : String) (what : String) (now : Nat)
    (marshalList : List (String × Nat) → Except String String)
    (marshalNat : Nat → Except String String) : HttpResponse :=
  if !xhr then .redirect statsPath 302
  else
    match GetUrl s okGet id with
    | .error e => .errorPage (errMsg e) 500
    | .ok none => .errorPage "No URL was found with that goshorty code" 404
    | .ok (some gosUrl) =>
      let body : String :=
        match statSwitch s okQuery gosUrl what now marshalList marshalNat with
        | .ok b => b
        | .error _ => ""
      let outerErr : Option String := none
      let body := match outerErr with
        | some e => errorBody e
        | none => body
      .json "application/json" 200 body

/-- The `what` values the stat route of `src/app.go` `main` (line 259)
admits: `{what:(hour|day|week|month|year|all|sources)}`. -/
def statRouteWhats : List String :=
  ["hour", "day", "week", "month", "year", "all", "sources"]

/-- `relativeTime` of `src/app.go` (lines 184-213) after the two
truncations to integers: `hours = int64(math.Abs(duration.Hours()))`
and `minutes = int64(math.Abs(duration.Minutes()))`, followed by the
`switch` on those integer values. -/
def relativeTime (hours minutes : Nat) : String :=
  if hours ≥ 365 * 24 then "Over an year ago"
  else if hours > 30 * 24 then toString (hours / (30 * 24)) ++ " months ago"
  else if hours = 30 * 24 then "a month ago"
  else if hours > 24 then toString (hours / 24) ++ " days ago"
  else if hours = 24 then "yesterday"
  else if hours ≥ 2 then toString hours ++ " hours ago"
  else if hours > 1 then "over an hour ago"
  else if hours = 1 then "an hour ago"
  else if minutes ≥ 2 then toString minutes ++ " minutes ago"
  else if minutes > 1 then "a minute ago"
  else "just now"

/-- `relativeTime` applied to a `time.Duration` (signed nanoseconds):
the hour and minute counts are the absolute duration truncated to whole
hours and to whole minutes. -/
def relativeTimeOfDuration (ns : Int) : String :=
  relativeTime (ns.natAbs / 3600000000000) (ns.natAbs / 60000000000)

/- ### Concurrent creation (spec §5), the race model for `Create` -/

/-- The progress of one concurrent creator: still retrying after
`attempts` collisions, resolved with a won record, or failed with
`CodeGenerationExhausted`. -/
inductive CStatus where
  | pending (attempts : Nat)
  | won (u : ShortUrl)
  | exhausted
  deriving DecidableEq, Repr

/-- One concurrent creator: its destination, its private stream of
random seeds (attempt number ↦ seed), and its progress. -/
structure Creator where
  dest : String
  draw : Nat → Nat
  status : CStatus

/-- A set of `n` creators racing on one shared store; creator `i` is
`creators i` for `i < n`. -/
structure CreateRace where
  store : Store
  n : Nat
  creators : Nat → Creator

/-- One atomic step of the race, scheduled at creator `i`: a pending
creator that has used up `maxAttempts` resolves to `exhausted`;
otherwise it draws the code of its next seed and races it through the
atomic `setIfAbsent` — winning resolves it to `won`, losing sends it
back to `pending` with one more attempt used (spec §5: "losers retry
with a new random code rather than erroring immediately"). -/
def raceStep (now L : Nat) (r : CreateRace) (i : Nat) : CreateRace :=
  if i < r.n then
    let c := r.creators i
    match c.status with
    | .pending a =>
      if a ≥ maxAttempts then
        { r with creators := Function.update r.creators i { c with status := .exhausted } }
      else
        let code := randomCode L (c.draw a)
        let record := ShortUrl.mk code c.dest now
        match setIfAbsent r.store code record with
        | (s', true) =>
          { store := s', n := r.n,
            creators := Function.update r.creators i { c with status := .won record } }
        | (s', false) =>
          { store := s', n := r.n,
            creators := Function.update r.creators i { c with status := .pending (a + 1) } }
    | _ => r
  else r

/-- Run the race under an arbitrary interleaving: the schedule lists
which creator acts at each instant. -/
def raceRun (now L : Nat) (r : CreateRace) (sched : List Nat) : CreateRace :=
  sched.foldl (raceStep now L) r

/-- The invariant of the race: the url table holds no two records under
the same Id, every code already won is present in the table, and no two
creators have won the same Id. -/
def raceInv (r : CreateRace) : Prop :=
  (r.store.urls.map Prod.fst).Nodup ∧
  (∀ i u, i < r.n → (r.creators i).status = .won u →
    u.Id ∈ r.store.urls.map Prod.fst) ∧
  (∀ i j u v, i < r.n → j < r.n →
    (r.creators i).status = .won u → (r.creators j).status = .won v →
    u.Id = v.Id → i = j)

/- ### Helper lemmas on the store primitives -/

theorem alookup_eq_none_iff {K V : Type} [DecidableEq K]
    (l : List (K × V)) (k : K) :
    alookup l k = none ↔ k ∉ l.map Prod.fst := by
  induction l with
  | nil => simp [alookup]
  | cons e t ih =>
    obtain ⟨k', v⟩ := e
    by_cases hk : k' = k <;> simp [alookup, hk, ih, Ne.symm]

theorem alookup_incrList_self {K : Type} [DecidableEq K]
    (l : List (K × Nat)) (k : K) (d : Nat) :
    alookup (incrList l k d) k = some (valList l k + d) := by
  induction l with
  | nil => simp [incrList, alookup, valList]
  | cons e t ih =>
    obtain ⟨k₀, v⟩ := e
    by_cases h0 : k₀ = k
    · subst h0; simp [incrList, alookup, valList]
    · simp [incrList, alookup, valList, h0, ih]

theorem alookup_incrList_ne {K : Type} [DecidableEq K]
    (l : List (K × Nat)) (k k' : K) (d : Nat) (h : k' ≠ k) :
    alookup (incrList l k d) k' = alookup l k' := by
  induction l with
  | nil => simp [incrList, alookup, Ne.symm h]
  | cons e t ih =>
    obtain ⟨k₀, v⟩ := e
    by_cases h0 : k₀ = k
    · subst h0
      simp [incrList, alookup, Ne.symm h]
    · simp [incrList, alookup, h0, ih]

theorem valList_incrList {K : Type} [DecidableEq K]
    (l : List (K × Nat)) (k k' : K) (d : Nat) :
    valList (incrList l k d) k' = valList l k' + (if k' = k then d else 0) := by
  by_cases h : k' = k
  · subst h
    simp [valList, alookup_incrList_self l k' d]
  · simp [valList, alookup_incrList_ne l k k' d h, h]

theorem sumMatching_incrList {K : Type} [DecidableEq K]
    (p : K → Bool) (l : List (K × Nat)) (k : K) (d : Nat) :
    sumMatching p (incrList l k d) =
      sumMatching p l + (if p k then d else 0) := by
  induction l with
  | nil => simp [incrList, sumMatching]
  | cons e t ih =>
    obtain ⟨k₀, v⟩ := e
    by_cases h0 : k₀ = k
    · subst h0
      by_cases hp : p k₀ <;> simp [incrList, sumMatching, hp] <;> omega
    · by_cases hp : p k₀ <;> simp [incrList, sumMatching, h0, hp, ih] <;> omega

theorem randomCode_length (L seed : Nat) : (randomCode L seed).length = L := by
  simp [randomCode, String.length]

theorem randomCode_mem_alphabet (L seed : Nat) :
    ∀ c ∈ (randomCode L seed).data, c ∈ alphabet := by
  intro c hc
  simp only [randomCode, String.mk, List.mem_map] at hc
  obtain ⟨i, _, hi⟩ := hc
  have hlt : seed / 62 ^ i % 62 < alphabet.length := by
    have : seed / 62 ^ i % 62 < 62 := Nat.mod_lt _ (by decide)
    simpa [alphabet] using this
  rw [List.getD_eq_getElem alphabet 'A' hlt] at hi
  exact hi ▸ List.getElem_mem hlt

theorem createAttempts_ok (s : Store) (dest : String) (now L : Nat)
    (seeds : List Nat) (u : ShortUrl) (s' : Store)
    (h : createAttempts s dest now L seeds = .ok (u, s')) :
    (∃ seed ∈ seeds, u.Id = randomCode L seed) ∧
    u.Destination = dest ∧ u.Created = now ∧
    alookup s'.urls u.Id = some u := by
  induction seeds with
  | nil => simp [createAttempts] at h
  | cons seed rest ih =>
    simp only [createAttempts] at h
    rcases hset : setIfAbsent s (randomCode L seed)
        (ShortUrl.mk (randomCode L seed) dest now) with ⟨s₁, b⟩
    rw [hset] at h
    cases b with
    | true =>
      simp only [Except.ok.injEq, Prod.mk.injEq] at h
      obtain ⟨hu, hs⟩ := h
      subst hu hs
      refine ⟨⟨seed, by simp, rfl⟩, rfl, rfl, ?_⟩
      simp only [setIfAbsent] at hset
      rcases hlook : alookup s.urls (randomCode L seed) with _ | v
      · rw [hlook] at hset
        simp only [Prod.mk.injEq] at hset
        rw [← hset.1]
        simp [alookup]
      · rw [hlook] at hset
        simp at hset
    | false =>
      obtain ⟨⟨sd, hsd, hid⟩, h2, h3, h4⟩ := ih h
      exact ⟨⟨sd, by simp [hsd], hid⟩, h2, h3, h4⟩

theorem append_suffix_ne (n s : String) (p t : List Char) (u : String)
    (hu : u.data = p ++ t) (hlen : s.data.length = t.length)
    (hne : s.data ≠ t) : n ++ s ≠ u := by
  intro h
  have hd : n.data ++ s.data = p ++ t := by
    rw [← String.data_append, h, hu]
  exact hne (List.append_inj' hd hlen).2

set_option maxHeartbeats 1000000 in
theorem relativeTime_ne_over_hour (h m : Nat) :
    relativeTime h m ≠ "over an hour ago" := by
  unfold relativeTime
  split_ifs with h1 h2 h3 h4 h5 h6 h7 h8 h9 h10
  · decide
  · exact append_suffix_ne _ " months ago" "over ".data "an hour ago".data _
      rfl (by decide) (by decide)
  · decide
  · exact append_suffix_ne _ " days ago" "over an".data " hour ago".data _
      rfl (by decide) (by decide)
  · decide
  · exact append_suffix_ne _ " hours ago" "over a".data "n hour ago".data _
      rfl (by decide) (by decide)
  · omega
  · decide
  · exact append_suffix_ne _ " minutes ago" "over".data " an hour ago".data _
      rfl (by decide) (by decide)
  · omega
  · decide

set_option maxHeartbeats 1000000 in
theorem relativeTime_ne_a_minute (h m : Nat) :
    relativeTime h m ≠ "a minute ago" := by
  unfold relativeTime
  split_ifs with h1 h2 h3 h4 h5 h6 h7 h8 h9 h10
  · decide
  · exact append_suffix_ne _ " months ago" "a".data " minute ago".data _
      rfl (by decide) (by decide)
  · decide
  · exact append_suffix_ne _ " days ago" "a m".data "inute ago".data _
      rfl (by decide) (by decide)
  · decide
  · exact append_suffix_ne _ " hours ago" "a ".data "minute ago".data _
      rfl (by decide) (by decide)
  · omega
  · decide
  · exact append_suffix_ne _ " minutes ago" "".data "a minute ago".data _
      rfl (by decide) (by decide)
  · omega
  · decide

theorem setIfAbsent_true (s s' : Store) (k : String) (v : ShortUrl)
    (h : setIfAbsent s k v = (s', true)) :
    alookup s.urls k = none ∧ s' = { s with urls := (k, v) :: s.urls } := by
  unfold setIfAbsent at h
  rcases hl : alookup s.urls k with _ | w
  · rw [hl] at h
    simp only [Prod.mk.injEq] at h
    exact ⟨rfl, h.1.symm⟩
  · rw [hl] at h
    simp at h

theorem setIfAbsent_false (s s' : Store) (k : String) (v : ShortUrl)
    (h : setIfAbsent s k v = (s', false)) : s' = s := by
  unfold setIfAbsent at h
  rcases hl : alookup s.urls k with _ | w
  · rw [hl] at h
    simp at h
  · rw [hl] at h
    simp only [Prod.mk.injEq] at h
    exact h.1.symm

theorem raceInv_raceStep (now L : Nat) (r : CreateRace) (i : Nat)
    (h : raceInv r) : raceInv (raceStep now L r i) := by
  obtain ⟨hnodup, hmem, hdist⟩ := h
  unfold raceStep
  by_cases hi : i < r.n
  swap
  · simpa [hi] using ⟨hnodup, hmem, hdist⟩
  simp only [if_pos hi]
  rcases hst : (r.creators i).status with a | u | _
  · by_cases ha : a ≥ maxAttempts
    · simp only [hst, if_pos ha]
      unfold raceInv
      dsimp only
      refine ⟨hnodup, ?_, ?_⟩
      · intro j u' hj hw
        rcases eq_or_ne j i with hji | hji
        · subst hji
          rw [Function.update_same] at hw
          simp at hw
        · rw [Function.update_noteq hji] at hw
          exact hmem j u' hj hw
      · intro j k u' v' hj hk hwj hwk hid
        rcases eq_or_ne j i with hji | hji
        · subst hji
          rw [Function.update_same] at hwj
          simp at hwj
        · rcases eq_or_ne k i with hki | hki
          · subst hki
            rw [Function.update_same] at hwk
            simp at hwk
          · rw [Function.update_noteq hji] at hwj
            rw [Function.update_noteq hki] at hwk
            exact hdist j k u' v' hj hk hwj hwk hid
    · simp only [hst, if_neg ha]
      rcases hset : setIfAbsent r.store (randomCode L ((r.creators i).draw a))
          (ShortUrl.mk (randomCode L ((r.creators i).draw a))
            (r.creators i).dest now) with ⟨s', b⟩
      cases b
      · have hs' : s' = r.store :=
          setIfAbsent_false _ _ _ _ hset
        subst hs'
        unfold raceInv
        dsimp only
        refine ⟨hnodup, ?_, ?_⟩
        · intro j u' hj hw
          rcases eq_or_ne j i with hji | hji
          · subst hji
            rw [Function.update_same] at hw
            simp at hw
          · rw [Function.update_noteq hji] at hw
            exact hmem j u' hj hw
        · intro j k u' v' hj hk hwj hwk hid
          rcases eq_or_ne j i with hji | hji
          · subst hji
            rw [Function.update_same] at hwj
            simp at hwj
          · rcases eq_or_ne k i with hki | hki
            · subst hki
              rw [Function.update_same] at hwk
              simp at hwk
            · rw [Function.update_noteq hji] at hwj
              rw [Function.update_noteq hki] at hwk
              exact hdist j k u' v' hj hk hwj hwk hid
      · obtain ⟨hnone, hs'⟩ :=
          setIfAbsent_true _ _ _ _ hset
        subst hs'
        have hfresh : randomCode L ((r.creators i).draw a) ∉
            r.store.urls.map Prod.fst :=
          (alookup_eq_none_iff _ _).mp hnone
        unfold raceInv
        dsimp only
        refine ⟨?_, ?_, ?_⟩
        · exact List.nodup_cons.mpr ⟨hfresh, hnodup⟩
        · intro j u' hj hw
          rcases eq_or_ne j i with hji | hji
          · subst hji
            rw [Function.update_same] at hw
            simp only [CStatus.won.injEq] at hw
            subst hw
            exact List.mem_cons_self _ _
          · rw [Function.update_noteq hji] at hw
            exact List.mem_cons_of_mem _ (hmem j u' hj hw)
        · intro j k u' v' hj hk hwj hwk hid
          rcases eq_or_ne j i with hji | hji
          · rcases eq_or_ne k i with hki | hki
            · rw [hji, hki]
            · subst hji
              rw [Function.update_same] at hwj
              rw [Function.update_noteq hki] at hwk
              simp only [CStatus.won.injEq] at hwj
              subst hwj
              have hcode := hmem k v' hk hwk
              rw [← hid] at hcode
              exact absurd hcode hfresh
          · rcases eq_or_ne k i with hki | hki
            · subst hki
              rw [Function.update_same] at hwk
              rw [Function.update_noteq hji] at hwj
              simp only [CStatus.won.injEq] at hwk
              subst hwk
              have hcode := hmem j u' hj hwj
              rw [hid] at hcode
              exact absurd hcode hfresh
            · rw [Function.update_noteq hji] at hwj
              rw [Function.update_noteq hki] at hwk
              exact hdist j k u' v' hj hk hwj hwk hid
  · simp only [hst]
    exact ⟨hnodup, hmem, hdist⟩
  · simp only [hst]
    exact ⟨hnodup, hmem, hdist⟩

theorem raceInv_raceRun (now L : Nat) (r : CreateRace) (sched : List Nat)
    (h : raceInv r) : raceInv (raceRun now L r sched) := by
  induction sched generalizing r with
  | nil => exact h
  | cons i rest ih =>
    exact ih (raceStep now L r i) (raceInv_raceStep now L r i h)

/- ### Aggregation invariants of the hit recorder -/

/-- The store reached from the empty store by a sequence of recorded
hits. -/
def hitTrace (events : List (ShortUrl × ClassifiedRequest)) : Store :=
  events.foldl (fun s e => RecordHit s e.1 e.2) emptyStore

/-- The sum of every time-bucket count of `(id, g)`. -/
def bucketSum (s : Store) (id : String) (g : Granularity) : Nat :=
  sumMatching (fun k => decide (k.1 = id) && decide (k.2.1 = g)) s.counters

/-- The all-time total of `id`: the single counter of the `all`
granularity. -/
def allTotal (s : Store) (id : String) : Nat :=
  valList s.counters (id, .all, "all")

theorem counters_recordHit (s : Store) (u : ShortUrl) (req : ClassifiedRequest) :
    (RecordHit s u req).counters =
      incrList (incrList (incrList (incrList (incrList (incrList s.counters
        (u.Id, .all, bucketKey .all req.timestamp) 1)
        (u.Id, .hour, bucketKey .hour req.timestamp) 1)
        (u.Id, .day, bucketKey .day req.timestamp) 1)
        (u.Id, .week, bucketKey .week req.timestamp) 1)
        (u.Id, .month, bucketKey .month req.timestamp) 1)
        (u.Id, .year, bucketKey .year req.timestamp) 1 := rfl

theorem sources_recordHit (s : Store) (u : ShortUrl) (req : ClassifiedRequest) :
    (RecordHit s u req).sources =
      incrList s.sources (u.Id, sourceKeyOf req) 1 := rfl

theorem bucketSum_recordHit (s : Store) (u : ShortUrl)
    (req : ClassifiedRequest) (id : String) (g : Granularity) :
    bucketSum (RecordHit s u req) id g =
      bucketSum s id g + (if u.Id = id then 1 else 0) := by
  unfold bucketSum
  rw [counters_recordHit]
  rw [sumMatching_incrList, sumMatching_incrList, sumMatching_incrList,
    sumMatching_incrList, sumMatching_incrList, sumMatching_incrList]
  by_cases hid : u.Id = id
  · cases g <;> simp [hid] <;> omega
  · simp [hid]

theorem allTotal_recordHit (s : Store) (u : ShortUrl)
    (req : ClassifiedRequest) (id : String) :
    allTotal (RecordHit s u req) id =
      allTotal s id + (if u.Id = id then 1 else 0) := by
  unfold allTotal
  rw [counters_recordHit]
  rw [valList_incrList, valList_incrList, valList_incrList,
    valList_incrList, valList_incrList, valList_incrList]
  by_cases hid : u.Id = id
  · simp [hid, bucketKey]
  · simp [bucketKey, hid]
    exact fun h => hid h.symm

theorem sumMatching_mono_pred {K : Type} (p q : K → Bool)
    (hpq : ∀ k, p k = true → q k = true) (l : List (K × Nat)) :
    sumMatching p l ≤ sumMatching q l := by
  induction l with
  | nil => simp [sumMatching]
  | cons e t ih =>
    obtain ⟨k, v⟩ := e
    simp only [sumMatching]
    by_cases hp : p k = true
    · rw [if_pos hp, if_pos (hpq k hp)]
      omega
    · rw [if_neg hp]
      by_cases hq : q k = true
      · rw [if_pos hq]; omega
      · rw [if_neg hq]; omega

theorem bucketSum_hitTrace (events : List (ShortUrl × ClassifiedRequest))
    (id : String) (g : Granularity) :
    bucketSum (hitTrace events) id g = allTotal (hitTrace events) id := by
  unfold hitTrace
  have key : ∀ (s : Store), bucketSum s id g = allTotal s id →
      bucketSum (events.foldl (fun s e => RecordHit s e.1 e.2) s) id g =
        allTotal (events.foldl (fun s e => RecordHit s e.1 e.2) s) id := by
    induction events with
    | nil => intro s hs; exact hs
    | cons e rest ih =>
      intro s hs
      simp only [List.foldl_cons]
      exact ih _ (by rw [bucketSum_recordHit, allTotal_recordHit, hs])
  exact key emptyStore (by simp [bucketSum, allTotal, emptyStore,
    sumMatching, valList, alookup])

theorem sourceLe_trans (a b c : String × Nat)
    (hab : sourceLe a b = true) (hbc : sourceLe b c = true) :
    sourceLe a c = true := by
  simp only [sourceLe, Bool.or_eq_true, Bool.and_eq_true,
    decide_eq_true_eq] at hab hbc ⊢
  rcases hab with h1 | ⟨h1, h2⟩
  · rcases hbc with h3 | ⟨h3, h4⟩
    · exact Or.inl (lt_trans h3 h1)
    · exact Or.inl (h3 ▸ h1)
  · rcases hbc with h3 | ⟨h3, h4⟩
    · exact Or.inl (h1 ▸ h3)
    · exact Or.inr ⟨h1.trans h3, le_trans h2 h4⟩

theorem sourceLe_total (a b : String × Nat) :
    (sourceLe a b || sourceLe b a) = true := by
  simp only [sourceLe, Bool.or_eq_true, Bool.and_eq_true,
    decide_eq_true_eq]
  rcases lt_trichotomy a.2 b.2 with h | h | h
  · exact Or.inr (Or.inl h)
  · rcases le_total a.1 b.1 with hs | hs
    · exact Or.inl (Or.inr ⟨h, hs⟩)
    · exact Or.inr (Or.inr ⟨h.symm, hs⟩)
  · exact Or.inl (Or.inl h)

/- ### Claim theorems -/

/-- C3.  For every id with no stored record, `Get(id)` returns an
absent result (`none`) and not an error — and fabricates nothing — while
a storage failure is returned as an error, so callers distinguish
not-found from storage failure. -/
theorem claim_C3 (s : Store) (id : String)
    (h : alookup s.urls id = none) :
    GetUrl s true id = .ok none ∧
    GetUrl s false id = .error .StorageFailure := by
  constructor
  · simp [GetUrl, h]
  · simp [GetUrl]

theorem claim_C3_witness :
    alookup emptyStore.urls "abcde" = none ∧
    (GetUrl emptyStore true "abcde" = .ok none ∧
      GetUrl emptyStore false "abcde" = .error .StorageFailure) :=
  ⟨rfl, claim_C3 emptyStore "abcde" rfl⟩

/-- C4.  For every valid destination URL, when `Create` returns a
`ShortUrl` its Id has exactly the configured length `L` (default 5) and
draws only on `[A-Za-z0-9]`, and a subsequent `Get` on that Id returns
a record equal to the one `Create` returned. -/
theorem claim_C4 (s : Store) (dest restrictDomain : String)
    (now L : Nat) (seeds : List Nat) (u : ShortUrl) (s' : Store)
    (hvalid : isValidUrl dest = true)
    (hok : Create s dest restrictDomain now L seeds = .ok (u, s')) :
    u.Id.length = L ∧
    (∀ c ∈ u.Id.data, c ∈ alphabet) ∧
    GetUrl s' true u.Id = .ok (some u) := by
  have hattempts : createAttempts s dest now L (seeds.take maxAttempts) =
      .ok (u, s') := by
    unfold Create at hok
    split at hok
    · simp at hok
    · split_ifs at hok with h1 h2
      all_goals first
      | exact hok
      | simp at hok
  obtain ⟨⟨seed, _, hid⟩, _, _, hlook⟩ :=
    createAttempts_ok s dest now L (seeds.take maxAttempts) u s' hattempts
  refine ⟨?_, ?_, ?_⟩
  · rw [hid]; exact randomCode_length L seed
  · rw [hid]; exact randomCode_mem_alphabet L seed
  · simp [GetUrl, hlook]

theorem claim_C4_witness :
    isValidUrl "http://example.com/x" = true ∧
    Create emptyStore "http://example.com/x" "" 0 defaultUrlLength [0] =
      .ok (ShortUrl.mk "AAAAA" "http://example.com/x" 0,
        Store.mk [("AAAAA", ShortUrl.mk "AAAAA" "http://example.com/x" 0)] [] []) ∧
    ((ShortUrl.mk "AAAAA" "http://example.com/x" 0).Id.length = defaultUrlLength ∧
      (∀ c ∈ (ShortUrl.mk "AAAAA" "http://example.com/x" 0).Id.data, c ∈ alphabet) ∧
      GetUrl (Store.mk [("AAAAA", ShortUrl.mk "AAAAA" "http://example.com/x" 0)] [] [])
        true (ShortUrl.mk "AAAAA" "http://example.com/x" 0).Id =
        .ok (some (ShortUrl.mk "AAAAA" "http://example.com/x" 0))) :=
  ⟨by decide, rfl,
    claim_C4 emptyStore "http://example.com/x" "" 0 defaultUrlLength [0]
      (ShortUrl.mk "AAAAA" "http://example.com/x" 0)
      (Store.mk [("AAAAA", ShortUrl.mk "AAAAA" "http://example.com/x" 0)] [] [])
      (by decide) rfl⟩

/-- C5.  For every store, storage health, short url and instant,
`Hits(shortUrl)` returns exactly what `Stats(shortUrl, "all")`
returns. -/
theorem claim_C5 (s : Store) (storageOk : Bool) (u : ShortUrl) (now : Nat) :
    Stats s storageOk u "all" now = Hits s storageOk u := by
  simp [Stats, Hits, parseGranularity, bucketKey]

/-- C6.  For every id and fixed granularity, after any sequence of
`RecordHit` operations from the empty store, the sum of any
sub-collection of time-bucket counts of `(id, g)` is at most the
all-time total of `id`, with equality once all buckets are enumerated;
and every counter — time bucket or source — is only ever incremented by
a `RecordHit`, never decremented or deleted. -/
theorem claim_C6 (events : List (ShortUrl × ClassifiedRequest))
    (id : String) (g : Granularity) :
    (∀ sub : (String × Granularity × String) → Bool,
      sumMatching (fun k => (decide (k.1 = id) && decide (k.2.1 = g)) && sub k)
        (hitTrace events).counters ≤ allTotal (hitTrace events) id) ∧
    bucketSum (hitTrace events) id g = allTotal (hitTrace events) id ∧
    (∀ (s : Store) (u : ShortUrl) (req : ClassifiedRequest) k,
      valList s.counters k ≤ valList (RecordHit s u req).counters k) ∧
    (∀ (s : Store) (u : ShortUrl) (req : ClassifiedRequest) k,
      valList s.sources k ≤ valList (RecordHit s u req).sources k) := by
  have hfull := bucketSum_hitTrace events id g
  refine ⟨?_, hfull, ?_, ?_⟩
  · intro sub
    calc sumMatching (fun k => (decide (k.1 = id) && decide (k.2.1 = g)) && sub k)
          (hitTrace events).counters
        ≤ bucketSum (hitTrace events) id g := by
          apply sumMatching_mono_pred
          intro k hk
          rw [Bool.and_eq_true] at hk
          exact hk.1
      _ = allTotal (hitTrace events) id := hfull
  · intro s u req k
    rw [counters_recordHit, valList_incrList, valList_incrList,
      valList_incrList, valList_incrList, valList_incrList, valList_incrList]
    split_ifs <;> omega
  · intro s u req k
    rw [sources_recordHit, valList_incrList]
    split_ifs <;> omega

/-- C7.  For every granularity string outside
`{hour, day, week, month, year, all}` — in particular `"minute"` —
`Stats` fails with `InvalidGranularity`. -/
theorem claim_C7 (s : Store) (storageOk : Bool) (u : ShortUrl)
    (g : String) (now : Nat)
    (h : g ∉ (["hour", "day", "week", "month", "year", "all"] : List String)) :
    Stats s storageOk u g now = .error .InvalidGranularity := by
  simp only [List.mem_cons, List.not_mem_nil, or_false, not_or] at h
  obtain ⟨h1, h2, h3, h4, h5, h6⟩ := h
  simp [Stats, parseGranularity, h1, h2, h3, h4, h5, h6]

theorem claim_C7_witness :
    "minute" ∉ (["hour", "day", "week", "month", "year", "all"] : List String) ∧
    Stats emptyStore true (ShortUrl.mk "abcde" "http://example.com/x" 0)
      "minute" 0 = .error .InvalidGranularity :=
  ⟨by decide,
    claim_C7 emptyStore true (ShortUrl.mk "abcde" "http://example.com/x" 0)
      "minute" 0 (by decide)⟩

/-- C1.  Under every interleaving of concurrent creators, creation via
the atomic `setIfAbsent` lets at most one creator win any given code:
no two records in the url table share an Id, no two creators resolve to
the same won Id, and every creator is, at each point, either resolved
to a won (hence distinct) Id, resolved to `CodeGenerationExhausted`, or
still retrying with a fresh random code. -/
theorem claim_C1 (now L : Nat) (r : CreateRace) (sched : List Nat)
    (h : raceInv r) :
    (((raceRun now L r sched).store.urls.map Prod.fst).Nodup ∧
      (∀ i j u v, i < (raceRun now L r sched).n →
        j < (raceRun now L r sched).n →
        ((raceRun now L r sched).creators i).status = .won u →
        ((raceRun now L r sched).creators j).status = .won v →
        u.Id = v.Id → i = j)) ∧
    (∀ i, i < (raceRun now L r sched).n →
      (∃ u, ((raceRun now L r sched).creators i).status = .won u) ∨
      ((raceRun now L r sched).creators i).status = .exhausted ∨
      (∃ a, ((raceRun now L r sched).creators i).status = .pending a)) := by
  obtain ⟨hnodup, _, hdist⟩ := raceInv_raceRun now L r sched h
  refine ⟨⟨hnodup, hdist⟩, ?_⟩
  intro i _
  rcases hst : ((raceRun now L r sched).creators i).status with a | u | _
  · exact Or.inr (Or.inr ⟨a, rfl⟩)
  · exact Or.inl ⟨u, rfl⟩
  · exact Or.inr (Or.inl rfl)

theorem claim_C1_witness :
    raceInv (CreateRace.mk emptyStore 2
      (fun _ => Creator.mk "http://example.com/x" (fun a => a) (.pending 0))) ∧
    ((((raceRun 0 5 (CreateRace.mk emptyStore 2
        (fun _ => Creator.mk "http://example.com/x" (fun a => a) (.pending 0)))
        [0, 1]).store.urls.map Prod.fst).Nodup ∧
      (∀ i j u v, i < (raceRun 0 5 (CreateRace.mk emptyStore 2
          (fun _ => Creator.mk "http://example.com/x" (fun a => a) (.pending 0)))
          [0, 1]).n →
        j < (raceRun 0 5 (CreateRace.mk emptyStore 2
          (fun _ => Creator.mk "http://example.com/x" (fun a => a) (.pending 0)))
          [0, 1]).n →
        ((raceRun 0 5 (CreateRace.mk emptyStore 2
          (fun _ => Creator.mk "http://example.com/x" (fun a => a) (.pending 0)))
          [0, 1]).creators i).status = .won u →
        ((raceRun 0 5 (CreateRace.mk emptyStore 2
          (fun _ => Creator.mk "http://example.com/x" (fun a => a) (.pending 0)))
          [0, 1]).creators j).status = .won v →
        u.Id = v.Id → i = j)) ∧
    (∀ i, i < (raceRun 0 5 (CreateRace.mk emptyStore 2
        (fun _ => Creator.mk "http://example.com/x" (fun a => a) (.pending 0)))
        [0, 1]).n →
      (∃ u, ((raceRun 0 5 (CreateRace.mk emptyStore 2
        (fun _ => Creator.mk "http://example.com/x" (fun a => a) (.pending 0)))
        [0, 1]).creators i).status = .won u) ∨
      ((raceRun 0 5 (CreateRace.mk emptyStore 2
        (fun _ => Creator.mk "http://example.com/x" (fun a => a) (.pending 0)))
        [0, 1]).creators i).status = .exhausted ∨
      (∃ a, ((raceRun 0 5 (CreateRace.mk emptyStore 2
        (fun _ => Creator.mk "http://example.com/x" (fun a => a) (.pending 0)))
        [0, 1]).creators i).status = .pending a))) :=
  have hinv : raceInv (CreateRace.mk emptyStore 2
      (fun _ => Creator.mk "http://example.com/x" (fun a => a) (.pending 0))) :=
    ⟨List.nodup_nil,
      fun _ _ _ hw => CStatus.noConfusion hw,
      fun _ _ _ _ _ _ hw _ _ => CStatus.noConfusion hw⟩
  ⟨hinv, claim_C1 0 5 _ [0, 1] hinv⟩

/-- C2.  For every redirect request whose short code resolves to a
record, the response is the 301 redirect to the destination regardless
of whether the detached hit-recording task later succeeds or fails
(`hitOk` ranges over both): recording never blocks the response and its
failure is never surfaced. -/
theorem claim_C2 (s : Store) (hitOk : Bool)
    (redirect404 originalUrl id : String) (req : ClassifiedRequest)
    (u : ShortUrl) (h : alookup s.urls id = some u) :
    (runRedirect s true hitOk redirect404 originalUrl id req).1 =
      .redirect u.Destination 301 := by
  simp [runRedirect, RedirectHandler, GetUrl, h]

theorem claim_C2_witness :
    alookup (Store.mk [("abcde", ShortUrl.mk "abcde" "http://example.com/x" 0)]
        [] []).urls "abcde" = some (ShortUrl.mk "abcde" "http://example.com/x" 0) ∧
    (runRedirect (Store.mk [("abcde", ShortUrl.mk "abcde" "http://example.com/x" 0)] [] [])
        true false "" "" "abcde" (ClassifiedRequest.mk 0 "" "")).1 =
      .redirect "http://example.com/x" 301 :=
  ⟨rfl,
    claim_C2 (Store.mk [("abcde", ShortUrl.mk "abcde" "http://example.com/x" 0)] [] [])
      false "" "" "abcde" (ClassifiedRequest.mk 0 "" "")
      (ShortUrl.mk "abcde" "http://example.com/x" 0) rfl⟩

/-- C8.  For every short url, `Sources(u, topNOnly)` is ordered by
count descending with ties broken by source key in lexical order; with
`topNOnly = true` it has at most `topN` entries and is a subset — entry
by entry, hence source key by source key — of `Sources(u, false)`,
which is the full breakdown (a permutation of all source entries of the
id). -/
theorem claim_C8 (s : Store) (u : ShortUrl) :
    ∃ full top,
      Sources s true u false = .ok full ∧
      Sources s true u true = .ok top ∧
      full.Pairwise (fun a b => sourceLe a b = true) ∧
      top.Pairwise (fun a b => sourceLe a b = true) ∧
      top.length ≤ topN ∧
      (∀ e ∈ top, e ∈ full) ∧
      (∀ k ∈ top.map Prod.fst, k ∈ full.map Prod.fst) ∧
      full.Perm (sourceEntries s u.Id) := by
  refine ⟨(sourceEntries s u.Id).mergeSort sourceLe,
    ((sourceEntries s u.Id).mergeSort sourceLe).take topN,
    by simp [Sources], by simp [Sources], ?_, ?_, ?_, ?_, ?_, ?_⟩
  · exact List.sorted_mergeSort sourceLe_trans sourceLe_total _
  · exact List.Pairwise.sublist (List.take_sublist _ _)
      (List.sorted_mergeSort sourceLe_trans sourceLe_total _)
  · rw [List.length_take]
    exact min_le_left _ _
  · exact fun e he => (List.take_sublist _ _).subset he
  · exact fun k hk => ((List.take_sublist _ _).map Prod.fst).subset hk
  · exact List.mergeSort_perm _ _

/-- C9.  In `StatHandler` the error checked after the switch is the
outer one from `GetUrl` (necessarily nil there), not the one the cases
declare with `:=`: whenever the stats/sources query or the JSON
marshalling fails, the error body is never written and the handler
responds 200, `application/json`, empty body. -/
theorem claim_C9 (s : Store) (okQuery : Bool)
    (statsPath id what : String) (now : Nat)
    (marshalList : List (String × Nat) → Except String String)
    (marshalNat : Nat → Except String String)
    (gosUrl : ShortUrl) (e : String)
    (hget : alookup s.urls id = some gosUrl)
    (hfail : statSwitch s okQuery gosUrl what now marshalList marshalNat =
      .error e) :
    StatHandler s true okQuery true statsPath id what now marshalList marshalNat =
      .json "application/json" 200 "" := by
  simp [StatHandler, GetUrl, hget, hfail]

theorem claim_C9_witness :
    alookup (Store.mk [("abcde", ShortUrl.mk "abcde" "http://example.com/x" 0)]
        [] []).urls "abcde" = some (ShortUrl.mk "abcde" "http://example.com/x" 0) ∧
    statSwitch (Store.mk [("abcde", ShortUrl.mk "abcde" "http://example.com/x" 0)] [] [])
        false (ShortUrl.mk "abcde" "http://example.com/x" 0) "all" 0
        (fun l => .ok (toString l)) (fun n => .ok (toString n)) =
      .error "storage failure" ∧
    StatHandler (Store.mk [("abcde", ShortUrl.mk "abcde" "http://example.com/x" 0)] [] [])
        true false true "/abcde+" "abcde" "all" 0
        (fun l => .ok (toString l)) (fun n => .ok (toString n)) =
      .json "application/json" 200 "" :=
  ⟨rfl, rfl,
    claim_C9 (Store.mk [("abcde", ShortUrl.mk "abcde" "http://example.com/x" 0)] [] [])
      false "/abcde+" "abcde" "all" 0
      (fun l => .ok (toString l)) (fun n => .ok (toString n))
      (ShortUrl.mk "abcde" "http://example.com/x" 0) "storage failure" rfl rfl⟩

/-- C10.  For every duration, `relativeTime` never returns
`"over an hour ago"` and never returns `"a minute ago"`: the hour and
minute counts are whole numbers, so the guards `hours > 1` and
`minutes > 1` are subsumed by the earlier `hours >= 2` and
`minutes >= 2` cases and those branches are unreachable. -/
theorem claim_C10 (ns : Int) :
    relativeTimeOfDuration ns ≠ "over an hour ago" ∧
    relativeTimeOfDuration ns ≠ "a minute ago" :=
  ⟨relativeTime_ne_over_hour (ns.natAbs / 3600000000000) (ns.natAbs / 60000000000),
    relativeTime_ne_a_minute (ns.natAbs / 3600000000000) (ns.natAbs / 60000000000)⟩

end Goshorty
